import Mathlib

/-!
# Verification of `plot_memory_consumption.py`

Shallow embedding of the repository's single script.  The script keeps two
global accumulators `xs` and `ys` (lists of per-file series), and the function
`read_memory_consuption` opens a file, appends a fresh empty series to each
accumulator, and then, for each line of the file, unpacks the line into exactly
two whitespace-separated tokens, parses the first as an integer and the second
as a float, appending each parsed value to the last series of the respective
accumulator.  The main part of the script runs this function over four fixed
file names and then issues four labelled plot calls plus `yticks(range(8))`.

Modelling choices:

* A file is modelled by its list of lines (the result of `readlines`, with the
  trailing newline of each line stripped — immaterial, because `str.split()`
  discards all surrounding whitespace).
* Python floats are modelled by rational numbers; a float token denotes the
  exact rational value of its decimal literal.
* Python exceptions are modelled by an explicit error component; mutation of
  the globals is modelled by explicit state passing of `PState`.
-/

namespace PlotMemoryConsumption

/-- Python exceptions that the script can raise: `ValueError` from tuple
unpacking or from `int()` / `float()`, `FileNotFoundError` from `open`,
`IndexError` from list indexing. -/
inductive PyErr where
  | valueError : PyErr
  | fileNotFound : PyErr
  | indexError : PyErr
deriving DecidableEq, Repr

/-- The whitespace characters recognised by Python's `str.split()` (space, tab,
newline, carriage return, vertical tab, form feed). -/
def isSpaceC (c : Char) : Bool :=
  c.toNat = 32 || c.toNat = 9 || c.toNat = 10 || c.toNat = 13 ||
    c.toNat = 11 || c.toNat = 12

/-- Decimal digit test, `'0' ≤ c ≤ '9'`. -/
def isDigitC (c : Char) : Bool :=
  48 ≤ c.toNat && c.toNat ≤ 57

/-- Worker for `pySplit`: `acc` is the current token, reversed. -/
def splitWAux : List Char → List Char → List (List Char)
  | [], acc => if acc.isEmpty then [] else [acc.reverse]
  | c :: cs, acc =>
    if isSpaceC c then
      if acc.isEmpty then splitWAux cs [] else acc.reverse :: splitWAux cs []
    else
      splitWAux cs (c :: acc)

/-- Python's `str.split()` with no arguments: split on runs of whitespace,
discarding leading and trailing whitespace (so an empty or whitespace-only
string yields `[]`). -/
def pySplit (s : String) : List String :=
  (splitWAux s.data []).map String.mk

/-- All characters are decimal digits. -/
def allDigits (cs : List Char) : Bool := cs.all isDigitC

/-- The numeric value of a digit character. -/
def dval (c : Char) : Nat := c.toNat - 48

/-- The number denoted by a list of decimal digits (most significant first). -/
def natVal (cs : List Char) : Nat :=
  cs.foldl (fun n c => 10 * n + dval c) 0

/-- Python's `int()` builtin on the grammar the script can meet: an optional
sign followed by a non-empty run of decimal digits; anything else raises
`ValueError` (here: `none`). -/
def pyIntChars : List Char → Option Int
  | [] => none
  | c :: rest =>
    if c = '-' then
      if rest.isEmpty || !allDigits rest then none
      else some (-(natVal rest : Int))
    else if c = '+' then
      if rest.isEmpty || !allDigits rest then none
      else some ((natVal rest : Int))
    else if allDigits (c :: rest) then some ((natVal (c :: rest) : Int))
    else none

/-- Split a token at its first `'.'`: the characters before it, and `some` the
characters after it (`none` when there is no dot). -/
def splitDot : List Char → List Char × Option (List Char)
  | [] => ([], none)
  | c :: cs =>
    if c = '.' then ([], some cs)
    else
      let p := splitDot cs
      (c :: p.1, p.2)

/-- The unsigned part of Python's `float()` grammar, restricted to plain
decimal literals: `digits`, `digits.`, `digits.digits` or `.digits`.  The
value of `a.b` is exactly `a + b / 10 ^ |b|`, built with `mkRat` as
`(a * 10 ^ |b| + b) / 10 ^ |b|` so that concrete runs reduce in the kernel. -/
def pyFloatMag (cs : List Char) : Option ℚ :=
  match splitDot cs with
  | (ip, none) =>
    if !ip.isEmpty && allDigits ip then some ((natVal ip : ℚ)) else none
  | (ip, some fp) =>
    if allDigits ip && allDigits fp && (!ip.isEmpty || !fp.isEmpty) then
      some (mkRat ((natVal ip * 10 ^ fp.length + natVal fp : Nat) : Int)
        (10 ^ fp.length))
    else none

/-- Python's `float()` builtin on the decimal-literal grammar relevant to the
script: optional sign followed by a plain decimal literal.  Anything else
raises `ValueError` (here: `none`). -/
def pyFloatChars : List Char → Option ℚ
  | [] => none
  | c :: rest =>
    if c = '-' then (pyFloatMag rest).map (fun q => -q)
    else if c = '+' then pyFloatMag rest
    else pyFloatMag (c :: rest)

/-- `int()` on a string. -/
def pyInt (s : String) : Option Int := pyIntChars s.data

/-- `float()` on a string. -/
def pyFloat (s : String) : Option ℚ := pyFloatChars s.data

/-- The result of one loop iteration of `read_memory_consuption` on one line,
when it succeeds: `x , y = line.split(); (int(x), float(y))`. -/
def parseLine (line : String) : Option (Int × ℚ) :=
  match pySplit line with
  | [a, b] =>
    match pyInt a, pyFloat b with
    | some x, some y => some (x, y)
    | _, _ => none
  | _ => none

/-- Specification device for `read_memory_consuption`'s loop over the lines of
one file: the integer values appended to `xs[-1]`, the float values appended
to `ys[-1]`, and the exception, if any, which stops the loop.  Mirrors the
statement order of the source: the unpacking `x , y = line.split()` raises
first, then `int(x)` (whose result is appended to `xs[-1]`), then `float(y)`
— so a line whose second token is not a float still gets its first token
appended to `xs[-1]`. -/
def parseLines : List String → List Int × List ℚ × Option PyErr
  | [] => ([], [], none)
  | line :: rest =>
    match pySplit line with
    | [a, b] =>
      match pyInt a with
      | none => ([], [], some PyErr.valueError)
      | some x =>
        match pyFloat b with
        | none => ([x], [], some PyErr.valueError)
        | some y =>
          let p := parseLines rest
          (x :: p.1, y :: p.2.1, p.2.2)
    | _ => ([], [], some PyErr.valueError)

/-- The script's global state: the accumulators `xs` and `ys`. -/
structure PState where
  xs : List (List Int)
  ys : List (List ℚ)
deriving DecidableEq, Repr

/-- Apply `f` to the last element of a list of lists (Python's `l[-1]`
assignment pattern `l[-1].append(v)` is `modifyLast (· ++ [v])`). -/
def modifyLast (f : List α → List α) : List (List α) → List (List α)
  | [] => []
  | [l] => [f l]
  | l :: ls => l :: modifyLast f ls

/-- The `for line in f.readlines()` loop of `read_memory_consuption`,
line by line on the global state. -/
def readLoop : PState → List String → PState × Option PyErr
  | st, [] => (st, none)
  | st, line :: rest =>
    match pySplit line with
    | [a, b] =>
      match pyInt a with
      | none => (st, some PyErr.valueError)
      | some x =>
        let st1 : PState := ⟨modifyLast (fun l => l ++ [x]) st.xs, st.ys⟩
        match pyFloat b with
        | none => (st1, some PyErr.valueError)
        | some y => readLoop ⟨st1.xs, modifyLast (fun l => l ++ [y]) st1.ys⟩ rest
    | _ => (st, some PyErr.valueError)

/-- `read_memory_consuption(file_name)`, with the file's content supplied as
its list of lines and the global state passed explicitly: append `[]` to both
accumulators, then run the parsing loop.  The second component is the
exception the call raises, if any; the first is the global state after the
call (Python retains the mutations even when the exception propagates). -/
def read_memory_consuption (st : PState) (lines : List String) :
    PState × Option PyErr :=
  readLoop ⟨st.xs ++ [[]], st.ys ++ [[]]⟩ lines

deriving instance DecidableEq for Except

/-- The spec's `load(file_name) → Sample Series` operation, realised by the
source's `read_memory_consuption` run on empty globals: on success the series
is the zip of the two appended value lists; on failure the exception is
returned. -/
def load (lines : List String) : Except PyErr (List (Int × ℚ)) :=
  match read_memory_consuption ⟨[], []⟩ lines with
  | (st, none) => Except.ok ((st.xs.getLastD []).zip (st.ys.getLastD []))
  | (_, some e) => Except.error e

/-- The first token's parsed integer of a malformed line, when the failure
happens only at the `float()` stage: the source appends it to `xs[-1]` before
the `ValueError` is raised. -/
def failX (line : String) : List Int :=
  match pySplit line with
  | [a, b] =>
    match pyInt a with
    | some x => if (pyFloat b).isNone then [x] else []
    | none => []
  | _ => []

/-! ## Claim C4: decimal rendering of a series and the round trip through `load`

The repository contains no writer, so the writer is modelled from the spec's
input-file format (`<integer><whitespace><float>`, one pair per line).  Float
values are modelled as rationals with a finite decimal expansion — every
finite binary floating-point value is such a rational. -/

/-- The character of a decimal digit `d < 10`. -/
def digitChar (d : Nat) : Char :=
  match d with
  | 0 => '0'
  | 1 => '1'
  | 2 => '2'
  | 3 => '3'
  | 4 => '4'
  | 5 => '5'
  | 6 => '6'
  | 7 => '7'
  | 8 => '8'
  | _ => '9'

/-- Fuel-driven decimal rendering of a natural number (most significant digit
first); any `fuel > n` is enough. -/
def natDigitsAux : Nat → Nat → List Char
  | 0, _ => []
  | fuel + 1, n =>
    if n < 10 then [digitChar n]
    else natDigitsAux fuel (n / 10) ++ [digitChar (n % 10)]

/-- The decimal digits of a natural number. -/
def natDigits (n : Nat) : List Char := natDigitsAux (n + 1) n

/-- `natDigits r` left-padded with zeros to width `k`. -/
def padDigits (k r : Nat) : List Char :=
  List.replicate (k - (natDigits r).length) '0' ++ natDigits r

/-- Decimal rendering of a non-negative rational whose denominator divides
`10 ^ q.den`: the digits of the integer part, a dot, and exactly `q.den`
fractional digits. -/
def magRepr (q : ℚ) : List Char :=
  natDigits (q.num.toNat * (10 ^ q.den / q.den) / 10 ^ q.den) ++
    '.' :: padDigits q.den (q.num.toNat * (10 ^ q.den / q.den) % 10 ^ q.den)

/-- Decimal rendering of a float value, with a leading minus sign when it is
negative. -/
def floatReprChars (q : ℚ) : List Char :=
  if q < 0 then '-' :: magRepr (-q) else magRepr q

/-- Decimal rendering of an integer. -/
def intReprChars (x : Int) : List Char :=
  if x < 0 then '-' :: natDigits x.natAbs else natDigits x.natAbs

/-- Modelled from the spec: the repository contains no writer, so one line of
the spec's input-file format, `<integer><whitespace><float>`, is produced
with a single space as the whitespace. -/
def writeLine (p : Int × ℚ) : String :=
  String.mk (intReprChars p.1 ++ ' ' :: floatReprChars p.2)

/-- Modelled from the spec: write a series one pair per line. -/
def writeSeries (series : List (Int × ℚ)) : List String :=
  series.map writeLine

/-- The float values of the model: rationals with a finite decimal expansion
(the denominator divides a power of ten; taking the exponent `q.den` itself
always works for such denominators).  Every finite binary floating-point
number satisfies this, its denominator being a power of two. -/
def FloatRepresentable (q : ℚ) : Prop := q.den ∣ 10 ^ q.den

instance (q : ℚ) : Decidable (FloatRepresentable q) :=
  inferInstanceAs (Decidable (q.den ∣ 10 ^ q.den))

/-- No character of the list is whitespace. -/
def noSpace (cs : List Char) : Bool := cs.all (fun c => !isSpaceC c)

/-! ## The main part of the script: four files, four plot calls, fixed ticks -/

/-- A rendered chart: one entry per `plt.plot` call — x-data, y-data and the
`label` keyword — plus the tick positions passed to `plt.yticks`. -/
structure Chart where
  plotted : List (List Int × List ℚ × String)
  yticks : List Nat
deriving DecidableEq, Repr

/-- The four input file names of the main loop, in source order. -/
def fileNames : List String :=
  ["LongLongHashMapMemory", "HashMapMemory", "HashtableMemory",
    "TreeMapMemory"]

/-- The main loop `for name in [...]: read_memory_consuption(name)`.  The file
system is supplied as a map from names to file contents; `none` means the
file cannot be opened, so `open` raises `FileNotFoundError` before the
accumulators are touched.  Any exception aborts the loop at once. -/
def runFiles (fs : String → Option (List String)) :
    PState → List String → PState × Option PyErr
  | st, [] => (st, none)
  | st, name :: rest =>
    match fs name with
    | none => (st, some PyErr.fileNotFound)
    | some lines =>
      match read_memory_consuption st lines with
      | (st2, none) => runFiles fs st2 rest
      | (st2, some e) => (st2, some e)

/-- The whole script: run the loop over the four file names; when no
exception was raised, issue the four labelled `plt.plot(xs[i], ys[i])` calls
(in source order, with the fixed labels) and `plt.yticks(range(8))`, and show
the resulting chart.  An exception aborts the script, and no chart is
displayed. -/
def runMain (fs : String → Option (List String)) : Except PyErr Chart :=
  match runFiles fs ⟨[], []⟩ fileNames with
  | (st, none) =>
    match st.xs, st.ys with
    | [a0, a1, a2, a3], [b0, b1, b2, b3] =>
      Except.ok ⟨[(a0, b0, "LongLongMap"), (a1, b1, "HashMap"),
        (a2, b2, "Hashtable"), (a3, b3, "TreeMap")], List.range 8⟩
    | _, _ => Except.error PyErr.indexError
  | (_, some e) => Except.error e

/-! ## Claim C5: the spec's `render` error conditions

The repository delegates all chart drawing to matplotlib, which is not part
of its sources; only the call sites appear in the script.  The `render`
operation below is therefore modelled from the spec. -/

/-- The spec's render-stage errors. -/
inductive RenderError where
  | lengthMismatch : RenderError
  | emptySeries : RenderError
deriving DecidableEq, Repr

/-- Modelled from the spec: the repository contains no `render`
implementation (drawing is delegated to matplotlib).  Per the spec: fail with
a `RenderError` if `series_collection` and `labels` differ in length or some
series is empty; otherwise draw one labelled line per series, in order, with
y-axis ticks fixed at 0..7.  An error means no chart is produced. -/
def render (series_collection : List (List (Int × ℚ)))
    (labels : List String) : Except RenderError Chart :=
  if series_collection.length ≠ labels.length then
    Except.error RenderError.lengthMismatch
  else if series_collection.any List.isEmpty then
    Except.error RenderError.emptySeries
  else
    Except.ok ⟨(series_collection.zip labels).map
      (fun p => (p.1.map Prod.fst, p.1.map Prod.snd, p.2)), List.range 8⟩

/-! ## Claim C7: file-handle events -/

/-- File-handle events. -/
inductive Ev where
  | opened : String → Ev
  | readAll : String → Ev
  | closed : String → Ev
deriving DecidableEq, Repr

/-- The handle events of one `read_memory_consuption` call, translated from
its body: `f = open(file_name)`, then `f.readlines()` — which consumes the
whole file before the parsing loop starts — and no close statement at all. -/
def readEvents (name : String) : List Ev :=
  [Ev.opened name, Ev.readAll name]

/-- The handle events of the main loop over (file name, contents) pairs: a
parse failure aborts the run before any further file is opened. -/
def runEvents : List (String × List String) → List Ev
  | [] => []
  | f :: rest =>
    readEvents f.1 ++
      (if (parseLines f.2).2.2.isSome then [] else runEvents rest)

/-- Whether an event is a close event. -/
def isClosed : Ev → Bool
  | Ev.closed _ => true
  | _ => false

/-- The trace shape `opened f, readAll f, opened g, readAll g, …`: every file
is opened and then immediately fully read before anything further happens. -/
def wellNested : List Ev → Bool
  | [] => true
  | Ev.opened n :: Ev.readAll m :: rest => (n == m) && wellNested rest
  | _ => false

/-! ## Structural lemmas about the loading loop -/

theorem modifyLast_concat (f : List α → List α) (ls : List (List α)) (a : List α) :
    modifyLast f (ls ++ [a]) = ls ++ [f a] := by
  induction ls with
  | nil => rfl
  | cons l ls ih =>
    cases ls with
    | nil => rfl
    | cons l2 ls2 => simpa [modifyLast] using ih

theorem readLoop_spec (lines : List String) :
    ∀ (xs0 : List (List Int)) (ys0 : List (List ℚ)) (cx : List Int) (cy : List ℚ),
    readLoop ⟨xs0 ++ [cx], ys0 ++ [cy]⟩ lines =
      (⟨xs0 ++ [cx ++ (parseLines lines).1], ys0 ++ [cy ++ (parseLines lines).2.1]⟩,
        (parseLines lines).2.2) := by
  induction lines with
  | nil => intro xs0 ys0 cx cy; simp [readLoop, parseLines]
  | cons line rest ih =>
    intro xs0 ys0 cx cy
    cases hs : pySplit line with
    | nil => simp [readLoop, parseLines, hs]
    | cons a t =>
      cases t with
      | nil => simp [readLoop, parseLines, hs]
      | cons b t2 =>
        cases t2 with
        | cons c t3 => simp [readLoop, parseLines, hs]
        | nil =>
          cases hi : pyInt a with
          | none => simp [readLoop, parseLines, hs, hi]
          | some x =>
            cases hf : pyFloat b with
            | none =>
              simp [readLoop, parseLines, hs, hi, hf, modifyLast_concat]
            | some y =>
              simp only [readLoop, parseLines, hs, hi, hf, modifyLast_concat]
              rw [ih]
              simp

theorem read_memory_consuption_spec (st : PState) (lines : List String) :
    read_memory_consuption st lines =
      (⟨st.xs ++ [(parseLines lines).1], st.ys ++ [(parseLines lines).2.1]⟩,
        (parseLines lines).2.2) := by
  unfold read_memory_consuption
  simpa using readLoop_spec lines st.xs st.ys [] []

theorem load_of_err {lines : List String} {e : PyErr}
    (h : (parseLines lines).2.2 = some e) : load lines = Except.error e := by
  unfold load
  rw [read_memory_consuption_spec, h]

theorem load_of_ok {lines : List String}
    (h : (parseLines lines).2.2 = none) :
    load lines = Except.ok ((parseLines lines).1.zip (parseLines lines).2.1) := by
  unfold load
  rw [read_memory_consuption_spec, h]
  simp

/-! ## Relating `parseLines` to the per-line parser `parseLine` -/

theorem parseLines_cons_ok {line : String} {p : Int × ℚ}
    (h : parseLine line = some p) (rest : List String) :
    parseLines (line :: rest) =
      (p.1 :: (parseLines rest).1, p.2 :: (parseLines rest).2.1,
        (parseLines rest).2.2) := by
  cases hs : pySplit line with
  | nil => rw [show parseLine line = none by simp [parseLine, hs]] at h; cases h
  | cons a t =>
    cases t with
    | nil => rw [show parseLine line = none by simp [parseLine, hs]] at h; cases h
    | cons b t2 =>
      cases t2 with
      | cons c t3 =>
        rw [show parseLine line = none by simp [parseLine, hs]] at h; cases h
      | nil =>
        cases hi : pyInt a with
        | none =>
          rw [show parseLine line = none by simp [parseLine, hs, hi]] at h
          cases h
        | some x =>
          cases hf : pyFloat b with
          | none =>
            rw [show parseLine line = none by simp [parseLine, hs, hi, hf]] at h
            cases h
          | some y =>
            rw [show parseLine line = some (x, y) by
              simp [parseLine, hs, hi, hf]] at h
            obtain rfl : p = (x, y) := by injection h with hv; exact hv.symm
            simp [parseLines, hs, hi, hf]



theorem parseLines_cons_bad {line : String}
    (h : parseLine line = none) (rest : List String) :
    parseLines (line :: rest) = (failX line, [], some PyErr.valueError) := by
  cases hs : pySplit line with
  | nil => simp [parseLines, failX, hs]
  | cons a t =>
    cases t with
    | nil => simp [parseLines, failX, hs]
    | cons b t2 =>
      cases t2 with
      | cons c t3 => simp [parseLines, failX, hs]
      | nil =>
        cases hi : pyInt a with
        | none => simp [parseLines, failX, hs, hi]
        | some x =>
          cases hf : pyFloat b with
          | none => simp [parseLines, failX, hs, hi, hf]
          | some y =>
            rw [show parseLine line = some (x, y) by
              simp [parseLine, hs, hi, hf]] at h
            cases h

theorem parseLines_all {lines : List String} {series : List (Int × ℚ)}
    (h : lines.map parseLine = series.map some) :
    parseLines lines = (series.map Prod.fst, series.map Prod.snd, none) := by
  induction lines generalizing series with
  | nil =>
    have : series = [] := by
      cases series with
      | nil => rfl
      | cons p ps => simp at h
    subst this; rfl
  | cons line rest ih =>
    cases series with
    | nil => simp at h
    | cons p ps =>
      simp only [List.map_cons, List.cons.injEq] at h
      rw [parseLines_cons_ok h.1, ih h.2]
      simp

theorem parseLines_err_mem {lines : List String} {l : String}
    (hm : l ∈ lines) (hb : parseLine l = none) :
    (parseLines lines).2.2 = some PyErr.valueError := by
  induction lines with
  | nil => simp at hm
  | cons line rest ih =>
    cases hp : parseLine line with
    | none => rw [parseLines_cons_bad hp]
    | some p =>
      rw [parseLines_cons_ok hp]
      rcases List.mem_cons.mp hm with h | h
      · subst h; rw [hp] at hb; exact absurd hb (by simp)
      · exact ih h

theorem load_of_mapsome {lines : List String} {series : List (Int × ℚ)}
    (h : lines.map parseLine = series.map some) :
    load lines = Except.ok series ∧ series.length = lines.length := by
  constructor
  · rw [load_of_ok (by rw [parseLines_all h])]
    rw [parseLines_all h]
    simp [List.zip_map']
  · have := congrArg List.length h
    simpa using this.symm

theorem parseLines_append {good : List String} {pairs : List (Int × ℚ)}
    (h : good.map parseLine = pairs.map some) (rest2 : List String) :
    parseLines (good ++ rest2) =
      (pairs.map Prod.fst ++ (parseLines rest2).1,
        pairs.map Prod.snd ++ (parseLines rest2).2.1,
        (parseLines rest2).2.2) := by
  induction good generalizing pairs with
  | nil =>
    have : pairs = [] := by
      cases pairs with
      | nil => rfl
      | cons p ps => simp at h
    subst this; simp
  | cons line rest ih =>
    cases pairs with
    | nil => simp at h
    | cons p ps =>
      simp only [List.map_cons, List.cons.injEq] at h
      rw [List.cons_append, parseLines_cons_ok h.1, ih h.2]
      simp

/-! ## Claim C1: loading a well-formed file -/

/-- C1: for every well-formed input file (each line splitting into exactly an
integer token and a float token, which parse to the corresponding pair of the
series), `load` succeeds with a series whose length equals the file's line
count and whose i-th pair is the i-th line's parsed values, in file order. -/
theorem c1_load_wellformed (lines : List String) (series : List (Int × ℚ))
    (h : lines.map parseLine = series.map some) :
    load lines = Except.ok series ∧ series.length = lines.length :=
  load_of_mapsome h

theorem c1_witness :
    (["1 2.5", "2 3.75"].map parseLine =
      [((1 : Int), mkRat 5 2), (2, mkRat 15 4)].map some) ∧
    load ["1 2.5", "2 3.75"] =
      Except.ok [((1 : Int), mkRat 5 2), (2, mkRat 15 4)] ∧
    ([((1 : Int), mkRat 5 2), (2, mkRat 15 4)] : List (Int × ℚ)).length =
      (["1 2.5", "2 3.75"] : List String).length := by
  refine ⟨by decide, ?_, ?_⟩
  · exact (c1_load_wellformed _ _ (by decide)).1
  · exact (c1_load_wellformed _ _ (by decide)).2

/-! ## Claim C2: blank lines are not skipped -/

/-- C2 counterexample: a file whose non-empty lines are all well-formed but
which contains a blank line.  The claim predicts `load` succeeds with one pair
per non-empty line; the code instead raises `ValueError`, because the blank
line splits into zero tokens and the unpacking `x , y = line.split()` fails.
The remaining conjuncts certify that the input is of the claimed shape: both
non-empty lines are well-formed and the middle line splits to no tokens. -/
theorem c2_counterexample :
    load ["1 2.5", "", "2 3.5"] = Except.error PyErr.valueError ∧
    parseLine "1 2.5" = some (1, mkRat 5 2) ∧
    parseLine "2 3.5" = some (2, mkRat 7 2) ∧
    pySplit "" = [] := by decide

/-- C2 (amended): for every input file containing a blank (empty or
whitespace-only) line, `load` fails with `ValueError`: blank lines are not
skipped — a blank line splits into zero tokens rather than two. -/
theorem c2_amended_blank_fails (lines : List String)
    (h : ∃ l ∈ lines, pySplit l = []) :
    load lines = Except.error PyErr.valueError := by
  obtain ⟨l, hm, hb⟩ := h
  have hn : parseLine l = none := by simp [parseLine, hb]
  exact load_of_err (parseLines_err_mem hm hn)

theorem c2_witness : load ["4 0.5", ""] = Except.error PyErr.valueError :=
  c2_amended_blank_fails _ ⟨"", by decide, by decide⟩

/-! ## Claim C3: malformed lines abort the load -/

/-- C3: for every input file containing a line that does not parse — it does
not split into exactly two tokens, or its first token is not an integer, or
its second token is not a float — `load` fails with `ValueError` and returns
no series. -/
theorem c3_load_parse_error (lines : List String)
    (h : ∃ l ∈ lines, parseLine l = none) :
    load lines = Except.error PyErr.valueError := by
  obtain ⟨l, hm, hb⟩ := h
  exact load_of_err (parseLines_err_mem hm hb)

theorem c3_witness : load ["1 2.5", "1 2 3"] = Except.error PyErr.valueError :=
  c3_load_parse_error _ ⟨"1 2 3", by decide, by decide⟩

/-! ## Claim C6: the load operation mutates the global accumulators -/

/-- C6 counterexample: the claim says a call to `load` leaves all program
state other than its returned series unchanged; but `read_memory_consuption`
mutates the global accumulators `xs` and `ys` (here: from `⟨[], []⟩` to
`⟨[[1]], [[5/2]]⟩`). -/
theorem c6_counterexample :
    (read_memory_consuption ⟨[], []⟩ ["1 2.5"]).1 ≠ (⟨[], []⟩ : PState) := by
  decide

/-- C6 (amended): besides reading the file, `read_memory_consuption`'s only
side effect is appending exactly one new series to each of the global
accumulators `xs` and `ys`; all previously stored series are left unchanged
(the old accumulators are a prefix of the new ones). -/
theorem c6_amended_appends_only (st : PState) (lines : List String) :
    ((read_memory_consuption st lines).1.xs.take st.xs.length = st.xs ∧
      (read_memory_consuption st lines).1.ys.take st.ys.length = st.ys) ∧
    (read_memory_consuption st lines).1.xs.length = st.xs.length + 1 ∧
    (read_memory_consuption st lines).1.ys.length = st.ys.length + 1 := by
  rw [read_memory_consuption_spec]
  simp

/-! ## Claim C9: failure is not atomic, and the x-entry can run one ahead -/

/-- C9 counterexample: on the file `["1 2.5", "3 q"]` the failing line is
`"3 q"` (its second token is not a float).  The claim predicts the retained
`xs` entry holds exactly the x-values of the pairs parsed before the failing
line, i.e. `[1]`; but the source appends `int(x)` before calling `float(y)`,
so the retained entry is `[1, 3]`. -/
theorem c9_counterexample :
    read_memory_consuption ⟨[], []⟩ ["1 2.5", "3 q"] =
      (⟨[[1, 3]], [[mkRat 5 2]]⟩, some PyErr.valueError) ∧
    [[1, 3]] ≠ ([[1]] : List (List Int)) := by decide

/-- C9 (amended): when `read_memory_consuption` fails partway through a file,
the global accumulators retain the newly appended series entry: `ys` retains
exactly the y-values of the lines before the failing one, and `xs` retains
the corresponding x-values — plus, when the failing line's first token parses
as an integer but its second fails float parsing, that integer as well
(`failX`).  The partial state is not rolled back. -/
theorem c9_amended_partial (st : PState) (good : List String)
    (pairs : List (Int × ℚ)) (bad : String) (rest : List String)
    (hg : good.map parseLine = pairs.map some) (hb : parseLine bad = none) :
    read_memory_consuption st (good ++ bad :: rest) =
      (⟨st.xs ++ [pairs.map Prod.fst ++ failX bad],
        st.ys ++ [pairs.map Prod.snd]⟩, some PyErr.valueError) := by
  rw [read_memory_consuption_spec, parseLines_append hg,
    parseLines_cons_bad hb]
  simp

theorem c9_witness :
    read_memory_consuption ⟨[], []⟩ (["2 0.25"] ++ "7 zz" :: []) =
      (⟨[[2, 7]], [[mkRat 1 4]]⟩, some PyErr.valueError) := by
  have h := c9_amended_partial ⟨[], []⟩ ["2 0.25"] [(2, mkRat 1 4)] "7 zz" []
    (by decide) (by decide)
  exact h.trans (by decide)

/-! ## Claim C10: the accumulators stay aligned -/

/-- C10: every call to `read_memory_consuption`, whether it completes or
fails, appends exactly one new series entry to each of `xs` and `ys` (the
entries are appended before any line is parsed, so they exist even on
failure), never modifies previously loaded series, and preserves
`len(xs) = len(ys)`. -/
theorem c10_invariant (st : PState) (lines : List String) :
    (read_memory_consuption st lines).1.xs = st.xs ++ [(parseLines lines).1] ∧
    (read_memory_consuption st lines).1.ys =
      st.ys ++ [(parseLines lines).2.1] ∧
    (st.xs.length = st.ys.length →
      (read_memory_consuption st lines).1.xs.length =
        (read_memory_consuption st lines).1.ys.length) := by
  rw [read_memory_consuption_spec]
  refine ⟨rfl, rfl, fun h => ?_⟩
  simp [h]

theorem c10_witness :
    (read_memory_consuption ⟨[[9]], [[2]]⟩ ["1 2.5"]).1.xs = [[9], [1]] ∧
    (read_memory_consuption ⟨[[9]], [[2]]⟩ ["1 2.5"]).1.ys =
      [[2], [mkRat 5 2]] ∧
    (read_memory_consuption ⟨[[9]], [[2]]⟩ ["1 2.5"]).1.xs.length =
      (read_memory_consuption ⟨[[9]], [[2]]⟩ ["1 2.5"]).1.ys.length := by
  have h := c10_invariant ⟨[[9]], [[2]]⟩ ["1 2.5"]
  exact ⟨h.1.trans (by decide), h.2.1.trans (by decide), h.2.2 (by decide)⟩



/-! ### Digit-level lemmas -/

theorem dval_digitChar {d : Nat} (h : d < 10) : dval (digitChar d) = d := by
  interval_cases d <;> rfl

theorem isDigitC_digitChar {d : Nat} (h : d < 10) :
    isDigitC (digitChar d) = true := by
  interval_cases d <;> rfl

theorem natVal_concat (ds : List Char) (c : Char) :
    natVal (ds ++ [c]) = 10 * natVal ds + dval c := by
  simp [natVal, List.foldl_append]

theorem natDigitsAux_spec :
    ∀ fuel n, n < fuel →
      allDigits (natDigitsAux fuel n) = true ∧ natDigitsAux fuel n ≠ [] ∧
        natVal (natDigitsAux fuel n) = n := by
  intro fuel
  induction fuel with
  | zero => omega
  | succ fuel ih =>
    intro n hn
    by_cases h10 : n < 10
    · refine ⟨?_, ?_, ?_⟩ <;>
        simp [natDigitsAux, h10, natVal, allDigits, isDigitC_digitChar,
          dval_digitChar, h10]
    · have hdiv : n / 10 < n := Nat.div_lt_self (by omega) (by omega)
      have hfuel : n / 10 < fuel := by omega
      obtain ⟨ha, hne, hv⟩ := ih (n / 10) hfuel
      refine ⟨?_, ?_, ?_⟩
      · simp [natDigitsAux, h10, allDigits] at ha ⊢
        exact ⟨ha, isDigitC_digitChar (by omega)⟩
      · simp [natDigitsAux, h10]
      · rw [show natDigitsAux (fuel + 1) n =
          natDigitsAux fuel (n / 10) ++ [digitChar (n % 10)] by
            simp [natDigitsAux, h10]]
        rw [natVal_concat, hv, dval_digitChar (by omega)]
        omega

theorem allDigits_natDigits (n : Nat) : allDigits (natDigits n) = true :=
  (natDigitsAux_spec (n + 1) n (by omega)).1

theorem natDigits_ne_nil (n : Nat) : natDigits n ≠ [] :=
  (natDigitsAux_spec (n + 1) n (by omega)).2.1

theorem natVal_natDigits (n : Nat) : natVal (natDigits n) = n :=
  (natDigitsAux_spec (n + 1) n (by omega)).2.2

theorem natDigitsAux_length :
    ∀ fuel n k, n < fuel → n < 10 ^ k → 1 ≤ k →
      (natDigitsAux fuel n).length ≤ k := by
  intro fuel
  induction fuel with
  | zero => omega
  | succ fuel ih =>
    intro n k hn hk hk1
    by_cases h10 : n < 10
    · simp [natDigitsAux, h10]
      omega
    · cases k with
      | zero => omega
      | succ k =>
        have hk2 : 1 ≤ k := by
          by_contra hc
          have : k = 0 := by omega
          subst this
          simp at hk
          omega
        have hdiv : n / 10 < n := Nat.div_lt_self (by omega) (by omega)
        have hlt : n / 10 < 10 ^ k := by
          rw [Nat.div_lt_iff_lt_mul (by omega)]
          calc n < 10 ^ (k + 1) := hk
            _ = 10 ^ k * 10 := by ring
        have := ih (n / 10) k (by omega) hlt hk2
        simp [natDigitsAux, h10]
        omega

theorem natDigits_length_le {n k : Nat} (h : n < 10 ^ k) (hk : 1 ≤ k) :
    (natDigits n).length ≤ k :=
  natDigitsAux_length (n + 1) n k (by omega) h hk

theorem length_padDigits {k r : Nat} (h : (natDigits r).length ≤ k) :
    (padDigits k r).length = k := by
  simp [padDigits]
  omega

theorem foldl_zeros (j : Nat) :
    List.foldl (fun n c => 10 * n + dval c) 0 (List.replicate j '0') = 0 := by
  induction j with
  | zero => rfl
  | succ j ih => simpa [List.replicate_succ, dval] using ih

theorem natVal_padDigits (k r : Nat) : natVal (padDigits k r) = r := by
  rw [padDigits, natVal, List.foldl_append, foldl_zeros]
  exact natVal_natDigits r

theorem allDigits_padDigits (k r : Nat) : allDigits (padDigits k r) = true := by
  have h := allDigits_natDigits r
  simp only [padDigits, allDigits, List.all_append, Bool.and_eq_true]
  refine ⟨?_, h⟩
  simp only [List.all_eq_true]
  intro c hc
  rw [List.eq_of_mem_replicate hc]
  rfl

/-! ### Character-class and tokenisation lemmas -/



theorem noSpace_of_allDigits {cs : List Char} (h : allDigits cs = true) :
    noSpace cs = true := by
  simp only [allDigits, List.all_eq_true] at h
  simp only [noSpace, List.all_eq_true]
  intro c hc
  have hd := h c hc
  simp only [isDigitC, Bool.and_eq_true, decide_eq_true_eq] at hd
  simp only [isSpaceC, Bool.not_eq_true', Bool.or_eq_false_iff,
    decide_eq_false_iff_not]
  omega

theorem natDigits_isEmpty (n : Nat) : (natDigits n).isEmpty = false := by
  cases h : natDigits n with
  | nil => exact absurd h (natDigits_ne_nil n)
  | cons c t => rfl

theorem digit_ne_dash {c : Char} (h : isDigitC c = true) : ¬(c = '-') := by
  intro he
  subst he
  exact absurd h (by decide)

theorem digit_ne_plus {c : Char} (h : isDigitC c = true) : ¬(c = '+') := by
  intro he
  subst he
  exact absurd h (by decide)

theorem digit_ne_dot {c : Char} (h : isDigitC c = true) : ¬(c = '.') := by
  intro he
  subst he
  exact absurd h (by decide)

theorem head_digit_append (n : Nat) (rest : List Char) :
    ∃ c t, natDigits n ++ rest = c :: t ∧ isDigitC c = true := by
  cases hA : natDigits n with
  | nil => exact absurd hA (natDigits_ne_nil n)
  | cons c0 t0 =>
    refine ⟨c0, t0 ++ rest, by simp, ?_⟩
    have h := allDigits_natDigits n
    rw [hA] at h
    simp only [allDigits, List.all_cons, Bool.and_eq_true] at h
    exact h.1

theorem noSpace_magRepr (q : ℚ) : noSpace (magRepr q) = true := by
  rw [magRepr, noSpace, List.all_append, List.all_cons]
  simp only [Bool.and_eq_true]
  exact ⟨noSpace_of_allDigits (allDigits_natDigits _), rfl,
    noSpace_of_allDigits (allDigits_padDigits _ _)⟩

theorem noSpace_floatReprChars (q : ℚ) : noSpace (floatReprChars q) = true := by
  rw [floatReprChars]
  split
  · rw [noSpace, List.all_cons]
    simp only [Bool.and_eq_true]
    exact ⟨rfl, noSpace_magRepr _⟩
  · exact noSpace_magRepr q

theorem noSpace_intReprChars (x : Int) : noSpace (intReprChars x) = true := by
  rw [intReprChars]
  split
  · rw [noSpace, List.all_cons]
    simp only [Bool.and_eq_true]
    exact ⟨rfl, noSpace_of_allDigits (allDigits_natDigits _)⟩
  · exact noSpace_of_allDigits (allDigits_natDigits _)

theorem magRepr_ne_nil (q : ℚ) : magRepr q ≠ [] := by
  rw [magRepr]
  simp

theorem floatReprChars_ne_nil (q : ℚ) : floatReprChars q ≠ [] := by
  rw [floatReprChars]
  split
  · simp
  · exact magRepr_ne_nil q

theorem intReprChars_ne_nil (x : Int) : intReprChars x ≠ [] := by
  rw [intReprChars]
  split
  · simp
  · exact natDigits_ne_nil _

theorem splitWAux_token :
    ∀ (t rest acc : List Char), t.all (fun c => !isSpaceC c) = true →
      splitWAux (t ++ rest) acc = splitWAux rest (t.reverse ++ acc) := by
  intro t
  induction t with
  | nil => intro rest acc _; simp
  | cons c t ih =>
    intro rest acc h
    simp only [List.all_cons, Bool.and_eq_true] at h
    have hc : isSpaceC c = false := by
      cases hcc : isSpaceC c
      · rfl
      · rw [hcc] at h; exact absurd h.1 (by decide)
    rw [List.cons_append, splitWAux, if_neg (by simp [hc])]
    rw [ih rest (c :: acc) h.2]
    simp

theorem splitWAux_pair {t1 t2 : List Char} (h1 : t1 ≠ []) (h2 : t2 ≠ [])
    (n1 : noSpace t1 = true) (n2 : noSpace t2 = true) :
    splitWAux (t1 ++ ' ' :: t2) [] = [t1, t2] := by
  rw [splitWAux_token t1 (' ' :: t2) [] n1]
  rw [splitWAux, if_pos (by decide)]
  rw [if_neg (by simp [h1])]
  rw [show (t2 : List Char) = t2 ++ [] from (List.append_nil t2).symm,
    splitWAux_token t2 [] [] n2]
  rw [splitWAux, if_neg (by simp [h2])]
  simp

theorem splitDot_digits {a : List Char} (h : allDigits a = true)
    (b : List Char) : splitDot (a ++ '.' :: b) = (a, some b) := by
  induction a with
  | nil => simp [splitDot]
  | cons c a ih =>
    simp only [allDigits, List.all_cons, Bool.and_eq_true] at h
    have hc : ¬(c = '.') := digit_ne_dot h.1
    have ht := ih h.2
    rw [List.cons_append, splitDot]
    simp [hc, ht]

/-! ### Parsing back what the writer produced -/

theorem pyFloatMag_magRepr {q : ℚ} (hq : 0 ≤ q) (hrep : FloatRepresentable q) :
    pyFloatMag (magRepr q) = some q := by
  have hden : 0 < q.den := q.pos
  have hPpos : 0 < 10 ^ q.den := pow_pos (by norm_num) _
  have hmod : q.num.toNat * (10 ^ q.den / q.den) % 10 ^ q.den < 10 ^ q.den :=
    Nat.mod_lt _ hPpos
  have hlen : (natDigits
      (q.num.toNat * (10 ^ q.den / q.den) % 10 ^ q.den)).length ≤ q.den :=
    natDigits_length_le hmod (by omega)
  have hsd := splitDot_digits (allDigits_natDigits
    (q.num.toNat * (10 ^ q.den / q.den) / 10 ^ q.den))
    (padDigits q.den (q.num.toNat * (10 ^ q.den / q.den) % 10 ^ q.den))
  rw [magRepr, pyFloatMag, hsd]
  dsimp only
  rw [if_pos (by
    simp [allDigits_natDigits, allDigits_padDigits, natDigits_isEmpty])]
  rw [natVal_natDigits, natVal_padDigits, length_padDigits hlen]
  congr 1
  rw [show q.num.toNat * (10 ^ q.den / q.den) / 10 ^ q.den * 10 ^ q.den +
        q.num.toNat * (10 ^ q.den / q.den) % 10 ^ q.den =
      q.num.toNat * (10 ^ q.den / q.den) by
    rw [Nat.mul_comm (q.num.toNat * (10 ^ q.den / q.den) / 10 ^ q.den)]
    exact Nat.div_add_mod _ _]
  have hnum : (q.num.toNat : Int) = q.num :=
    Int.toNat_of_nonneg (Rat.num_nonneg.mpr hq)
  have hdvd : q.den ∣ 10 ^ q.den := hrep
  have hden0 : ((q.den : ℚ)) ≠ 0 := Nat.cast_ne_zero.mpr (by omega)
  have hP0 : ((10 ^ q.den : ℕ) : ℚ) ≠ 0 := Nat.cast_ne_zero.mpr (by omega)
  rw [Rat.mkRat_eq_div]
  rw [div_eq_iff (by exact_mod_cast hP0)]
  rw [Int.cast_natCast]
  refine mul_right_cancel₀ hden0 ?_
  have hq' : q * (q.den : ℚ) = (q.num : ℚ) := by
    have h0 := Rat.num_div_den q
    rw [div_eq_iff hden0] at h0
    exact h0.symm
  have hnumQ : ((q.num.toNat : ℕ) : ℚ) = (q.num : ℚ) := by
    exact_mod_cast hnum
  have hNat : q.num.toNat * (10 ^ q.den / q.den) * q.den =
      q.num.toNat * 10 ^ q.den := by
    rw [Nat.mul_assoc, Nat.div_mul_cancel hdvd]
  calc ((q.num.toNat * (10 ^ q.den / q.den) : ℕ) : ℚ) * (q.den : ℚ)
      = ((q.num.toNat * (10 ^ q.den / q.den) * q.den : ℕ) : ℚ) := by
        push_cast
        ring
    _ = ((q.num.toNat * 10 ^ q.den : ℕ) : ℚ) := by rw [hNat]
    _ = (q.num : ℚ) * ((10 ^ q.den : ℕ) : ℚ) := by
        push_cast
        rw [hnumQ]
    _ = q * ((10 ^ q.den : ℕ) : ℚ) * (q.den : ℚ) := by
        rw [← hq']
        ring

theorem pyFloatChars_of_digit_head {c : Char} {t : List Char}
    (h : isDigitC c = true) : pyFloatChars (c :: t) = pyFloatMag (c :: t) := by
  rw [pyFloatChars]
  rw [if_neg (digit_ne_dash h), if_neg (digit_ne_plus h)]

theorem pyFloatChars_floatRepr {q : ℚ} (hrep : FloatRepresentable q) :
    pyFloatChars (floatReprChars q) = some q := by
  by_cases hlt : q < 0
  · rw [floatReprChars, if_pos hlt]
    have hneg : (0 : ℚ) ≤ -q := by linarith
    have hrepn : FloatRepresentable (-q) := by
      unfold FloatRepresentable at hrep ⊢
      rw [Rat.neg_den]
      exact hrep
    rw [pyFloatChars, if_pos rfl, pyFloatMag_magRepr hneg hrepn]
    simp
  · have hge : (0 : ℚ) ≤ q := not_lt.mp hlt
    rw [floatReprChars, if_neg hlt, magRepr]
    obtain ⟨c, t, hct, hcd⟩ := head_digit_append
      (q.num.toNat * (10 ^ q.den / q.den) / 10 ^ q.den)
      ('.' :: padDigits q.den
        (q.num.toNat * (10 ^ q.den / q.den) % 10 ^ q.den))
    rw [hct, pyFloatChars_of_digit_head hcd, ← hct]
    exact pyFloatMag_magRepr hge hrep

theorem pyIntChars_intRepr (x : Int) : pyIntChars (intReprChars x) = some x := by
  by_cases hx : x < 0
  · rw [intReprChars, if_pos hx, pyIntChars, if_pos rfl]
    rw [if_neg (by simp [natDigits_isEmpty, allDigits_natDigits])]
    rw [natVal_natDigits]
    have : -(x.natAbs : Int) = x := by omega
    rw [this]
  · rw [intReprChars, if_neg hx]
    cases hA : natDigits x.natAbs with
    | nil => exact absurd hA (natDigits_ne_nil _)
    | cons c t =>
      have hall := allDigits_natDigits x.natAbs
      rw [hA] at hall
      have hcd : isDigitC c = true := by
        simp only [allDigits, List.all_cons, Bool.and_eq_true] at hall
        exact hall.1
      simp only [pyIntChars]
      rw [if_neg (digit_ne_dash hcd), if_neg (digit_ne_plus hcd),
        if_pos hall, ← hA, natVal_natDigits]
      have : (x.natAbs : Int) = x := by omega
      rw [this]

theorem parseLine_writeLine {p : Int × ℚ} (h : FloatRepresentable p.2) :
    parseLine (writeLine p) = some p := by
  have hsplit : pySplit (writeLine p) =
      [String.mk (intReprChars p.1), String.mk (floatReprChars p.2)] := by
    rw [writeLine, pySplit]
    rw [show (String.mk (intReprChars p.1 ++ ' ' ::
        floatReprChars p.2)).data =
      intReprChars p.1 ++ ' ' :: floatReprChars p.2 from rfl]
    rw [splitWAux_pair (intReprChars_ne_nil p.1) (floatReprChars_ne_nil p.2)
      (noSpace_intReprChars p.1) (noSpace_floatReprChars p.2)]
    rfl
  rw [parseLine, hsplit]
  have hi : pyInt (String.mk (intReprChars p.1)) = some p.1 :=
    pyIntChars_intRepr p.1
  have hf : pyFloat (String.mk (floatReprChars p.2)) = some p.2 :=
    pyFloatChars_floatRepr h
  simp [hi, hf]

/-- C4: round trip — writing any series of (integer, float) pairs in the
spec's one-pair-per-line format `<integer><whitespace><float>` and loading
the resulting file reproduces the series exactly (same pairs, same order,
same length).  Float values are the rationals with finite decimal expansion
(`FloatRepresentable`), which covers every finite binary floating-point
value. -/
theorem c4_roundtrip (series : List (Int × ℚ))
    (h : ∀ p ∈ series, FloatRepresentable p.2) :
    load (writeSeries series) = Except.ok series ∧
      (writeSeries series).length = series.length := by
  have hmap : (writeSeries series).map parseLine = series.map some := by
    rw [writeSeries, List.map_map]
    exact List.map_congr_left (fun p hp => parseLine_writeLine (h p hp))
  exact ⟨(load_of_mapsome hmap).1, by simp [writeSeries]⟩

theorem c4_witness :
    load (writeSeries [(3, mkRat 5 2), (-2, -(mkRat 7 4)), (0, 4)]) =
      Except.ok [(3, mkRat 5 2), (-2, -(mkRat 7 4)), (0, 4)] ∧
    (writeSeries [(3, mkRat 5 2), (-2, -(mkRat 7 4)), (0, 4)]).length =
      ([(3, mkRat 5 2), (-2, -(mkRat 7 4)), (0, 4)] : List (Int × ℚ)).length :=
  c4_roundtrip _ (by decide)

/-- C8: every run that reaches rendering displays a chart whose y-axis ticks
are exactly the integers 0 through 7 — regardless of the y data — with one
labelled line per input file, labelled `LongLongMap`, `HashMap`, `Hashtable`,
`TreeMap` in that order. -/
theorem c8_fixed_ticks_labels (fs : String → Option (List String))
    (ch : Chart) (h : runMain fs = Except.ok ch) :
    ch.yticks = [0, 1, 2, 3, 4, 5, 6, 7] ∧
    ch.plotted.map (fun t => t.2.2) =
      ["LongLongMap", "HashMap", "Hashtable", "TreeMap"] := by
  unfold runMain at h
  split at h
  case h_2 => cases h
  case h_1 st e hst =>
    split at h
    case h_2 => cases h
    case h_1 a0 a1 a2 a3 b0 b1 b2 b3 hxs hys =>
      cases h
      exact ⟨rfl, rfl⟩

theorem c8_witness :
    (⟨[([1], [mkRat 5 2], "LongLongMap"), ([1], [mkRat 5 2], "HashMap"),
        ([1], [mkRat 5 2], "Hashtable"), ([1], [mkRat 5 2], "TreeMap")],
      List.range 8⟩ : Chart).yticks = [0, 1, 2, 3, 4, 5, 6, 7] ∧
    (⟨[([1], [mkRat 5 2], "LongLongMap"), ([1], [mkRat 5 2], "HashMap"),
        ([1], [mkRat 5 2], "Hashtable"), ([1], [mkRat 5 2], "TreeMap")],
      List.range 8⟩ : Chart).plotted.map (fun t => t.2.2) =
      ["LongLongMap", "HashMap", "Hashtable", "TreeMap"] :=
  c8_fixed_ticks_labels (fun _ => some ["1 2.5"])
    ⟨[([1], [mkRat 5 2], "LongLongMap"), ([1], [mkRat 5 2], "HashMap"),
        ([1], [mkRat 5 2], "Hashtable"), ([1], [mkRat 5 2], "TreeMap")],
      List.range 8⟩ (by decide)



/-- C5: `render` fails with a `RenderError` — returning no chart — whenever
the series collection and the label sequence differ in length, or some series
in the collection is empty. -/
theorem c5_render_error (series_collection : List (List (Int × ℚ)))
    (labels : List String)
    (h : series_collection.length ≠ labels.length ∨
      ∃ s ∈ series_collection, s = []) :
    ∃ e, render series_collection labels = Except.error e := by
  rw [render]
  by_cases hl : series_collection.length = labels.length
  · rw [if_neg (by simp [hl])]
    rcases h with h | ⟨s, hs, rfl⟩
    · exact absurd hl h
    · rw [if_pos (List.any_eq_true.mpr ⟨[], hs, rfl⟩)]
      exact ⟨_, rfl⟩
  · rw [if_pos hl]
    exact ⟨_, rfl⟩

theorem c5_witness :
    ∃ e, render [[], [(1, (1 : ℚ))]] ["a", "b"] = Except.error e :=
  c5_render_error _ _ (Or.inr ⟨[], by decide, rfl⟩)



/-- C7 counterexample: a run over two well-formed files.  The claim says each
handle is closed before the next file is opened, but the trace opens file B
directly after reading file A and contains no close event whatsoever. -/
theorem c7_counterexample :
    runEvents [("A", ["1 2.5"]), ("B", ["1 2.5"])] =
      [Ev.opened "A", Ev.readAll "A", Ev.opened "B", Ev.readAll "B"] ∧
    ([Ev.opened "A", Ev.readAll "A", Ev.opened "B",
      Ev.readAll "B"].all fun e => !(isClosed e)) = true := by decide

/-- C7 (amended): in every run, each file is opened and immediately fully
consumed (`readlines` runs before the parsing loop, so full consumption
happens even when parsing fails) before the next file is opened — but the
program never closes any handle: no close event occurs in any trace, release
being left to the language runtime. -/
theorem c7_amended_no_close (files : List (String × List String)) :
    wellNested (runEvents files) = true ∧
    ((runEvents files).all fun e => !(isClosed e)) = true := by
  induction files with
  | nil => exact ⟨rfl, rfl⟩
  | cons f rest ih =>
    simp only [runEvents, readEvents, List.cons_append, List.nil_append]
    split
    · refine ⟨by simp [wellNested], ?_⟩
      simp only [List.all_cons, List.all_nil, Bool.and_eq_true]
      exact ⟨rfl, rfl, trivial⟩
    · refine ⟨by simp [wellNested, ih.1], ?_⟩
      simp only [List.all_cons, Bool.and_eq_true]
      exact ⟨rfl, rfl, ih.2⟩

end PlotMemoryConsumption
